import Mathlib

/-!
Verification of the ip-reverser application (`src/app.py`).

Strings are modelled as `List Char`.  `pySplit` models Python's
`str.split(sep)` for a one-character separator, `joinDot` models
`sep.join(list)`, and `pyStrip` models `str.strip()`.  The two core
functions `get_client_ip` and `reverse_ip` are translated line by line
from the source; the dynamic `None` value that `request.remote_addr`
may produce is modelled with `Option`, and the `try/except` block of
`reverse_ip` with an `Except`-valued body.
-/

/-- A Python string in this development: a list of characters. -/
abbrev Str := List Char

/-- Python `s.split(sep)` for a single-character separator `sep`:
splits at every occurrence of `sep`, keeping empty segments, and yields
`[""]` on the empty string (the result is never the empty list). -/
def pySplit (sep : Char) : Str → List Str
  | [] => [[]]
  | c :: cs =>
    if c = sep then
      [] :: pySplit sep cs
    else
      (c :: (pySplit sep cs).headD []) :: (pySplit sep cs).tail

/-- Python `sep.join(l)` for a single-character separator. -/
def joinDot (sep : Char) : List Str → Str
  | [] => []
  | [x] => x
  | x :: y :: xs => x ++ sep :: joinDot sep (y :: xs)

/-- The whitespace predicate of Python's `str.strip()`. -/
def pyIsSpace (c : Char) : Bool :=
  c = ' ' || c = '\t' || c = '\n' || c = '\r' || c = '\x0b' || c = '\x0c'

/-- Python `s.strip()`: remove leading and trailing whitespace. -/
def pyStrip (s : Str) : Str :=
  ((s.dropWhile pyIsSpace).reverse.dropWhile pyIsSpace).reverse

/-- `reverse_ip` from `src/app.py`, lines 44-50 (the body of the `try`
block on a string argument): split on dots; if exactly four segments,
reverse and rejoin, else return the invalid-format message. -/
def reverse_ip (ip_address : Str) : Str :=
  let segments := pySplit '.' ip_address
  if segments.length = 4 then
    joinDot '.' segments.reverse
  else
    "Invalid IP format: ".data ++ ip_address

theorem pySplit_ne_nil (sep : Char) (s : Str) : pySplit sep s ≠ [] := by
  cases s with
  | nil => simp [pySplit]
  | cons c cs =>
    simp only [pySplit]
    split <;> simp

theorem pySplit_cons_sep (sep : Char) (cs : Str) :
    pySplit sep (sep :: cs) = [] :: pySplit sep cs := by
  simp [pySplit]

theorem pySplit_cons_ne (sep c : Char) (cs : Str) (h : c ≠ sep) :
    pySplit sep (c :: cs) =
      (c :: (pySplit sep cs).headD []) :: (pySplit sep cs).tail := by
  simp [pySplit, h]

theorem pySplit_no_sep (sep : Char) :
    ∀ a : Str, sep ∉ a → pySplit sep a = [a] := by
  intro a
  induction a with
  | nil => intro _; rfl
  | cons c cs ih =>
    intro h
    have hc : c ≠ sep := fun hcs => h (hcs ▸ List.mem_cons_self c cs)
    have hcs : sep ∉ cs := fun hm => h (List.mem_cons_of_mem c hm)
    rw [pySplit_cons_ne sep c cs hc, ih hcs]
    rfl

theorem pySplit_append (sep : Char) :
    ∀ (a rest : Str), sep ∉ a →
      pySplit sep (a ++ sep :: rest) = a :: pySplit sep rest := by
  intro a
  induction a with
  | nil =>
    intro rest _
    simpa using pySplit_cons_sep sep rest
  | cons c a' ih =>
    intro rest h
    have hc : c ≠ sep := fun hcs => h (hcs ▸ List.mem_cons_self c a')
    have ha' : sep ∉ a' := fun hm => h (List.mem_cons_of_mem c hm)
    rw [List.cons_append, pySplit_cons_ne sep c _ hc, ih rest ha']
    rfl

theorem mem_pySplit_not_mem (sep : Char) :
    ∀ (s : Str), ∀ t ∈ pySplit sep s, sep ∉ t := by
  intro s
  induction s with
  | nil =>
    intro t ht
    simp [pySplit] at ht
    simp [ht]
  | cons c cs ih =>
    intro t ht
    by_cases hc : c = sep
    · subst hc
      rw [pySplit_cons_sep] at ht
      rcases List.mem_cons.mp ht with h1 | h2
      · simp [h1]
      · exact ih t h2
    · rw [pySplit_cons_ne sep c cs hc] at ht
      rcases List.mem_cons.mp ht with h1 | h2
      · subst h1
        intro hmem
        rcases List.mem_cons.mp hmem with h3 | h4
        · exact hc h3.symm
        · rcases hx : pySplit sep cs with _ | ⟨x, xs⟩
          · exact pySplit_ne_nil sep cs hx
          · rw [hx] at h4
            exact ih x (hx ▸ List.mem_cons_self x xs) (by simpa using h4)
      · exact ih t (List.tail_subset _ h2)

theorem joinDot_pySplit (sep : Char) :
    ∀ s : Str, joinDot sep (pySplit sep s) = s := by
  intro s
  induction s with
  | nil => rfl
  | cons c cs ih =>
    by_cases hc : c = sep
    · subst hc
      rw [pySplit_cons_sep]
      rcases hx : pySplit c cs with _ | ⟨x, xs⟩
      · exact absurd hx (pySplit_ne_nil c cs)
      · rw [hx] at ih
        simp only [joinDot, List.nil_append]
        rw [ih]
    · rw [pySplit_cons_ne sep c cs hc]
      rcases hx : pySplit sep cs with _ | ⟨x, xs⟩
      · exact absurd hx (pySplit_ne_nil sep cs)
      · rw [hx] at ih
        cases xs with
        | nil =>
          simp only [List.headD_cons, List.tail_cons, joinDot]
          simp only [joinDot] at ih
          rw [ih]
        | cons y ys =>
          simp only [List.headD_cons, List.tail_cons, joinDot, List.cons_append]
          simp only [joinDot] at ih
          rw [ih]

theorem pySplit_joinDot (sep : Char) :
    ∀ l : List Str, l ≠ [] → (∀ t ∈ l, sep ∉ t) →
      pySplit sep (joinDot sep l) = l := by
  intro l
  induction l with
  | nil => intro h; exact absurd rfl h
  | cons x l' ih =>
    intro _ hmem
    cases l' with
    | nil =>
      simp only [joinDot]
      exact pySplit_no_sep sep x (hmem x (List.mem_cons_self x []))
    | cons y l'' =>
      simp only [joinDot]
      rw [pySplit_append sep x _ (hmem x (List.mem_cons_self x _))]
      have := ih (by simp) (fun t ht => hmem t (List.mem_cons_of_mem x ht))
      simp only [joinDot] at this
      rw [this]

/-- An incoming HTTP request as the two core functions see it:
the framework's case-insensitive header lookup (absent header gives
`none`), the transport peer address `remote_addr` (which Flask may
report as `None`), the HTTP method and the request path. -/
structure Request where
  headers : String → Option Str
  remote_addr : Option Str
  method : String
  path : Str

/-- The ordered candidate list of `get_client_ip`
(`src/app.py`, lines 15-21). -/
def headers_to_check : List String :=
  ["X-Forwarded-For", "X-Real-IP", "X-Forwarded", "X-Cluster-Client-IP",
   "CF-Connecting-IP"]

/-- The per-header processing of `get_client_ip` (lines 27-28):
if the value contains a comma, take the first comma-separated element
and strip it; otherwise the value is returned as is. -/
def processHeaderValue (ip : Str) : Str :=
  if ',' ∈ ip then pyStrip ((pySplit ',' ip).headD []) else ip

/-- The `for header in headers_to_check` loop of `get_client_ip`
(lines 23-35): a header that is absent (`None`) or empty is falsy and
is skipped; the first truthy value is processed and returned; when the
list is exhausted the function falls back to `request.remote_addr`. -/
def headerLoop (req : Request) : List String → Option Str
  | [] => req.remote_addr
  | h :: rest =>
    match req.headers h with
    | none => headerLoop req rest
    | some ip => if ip = [] then headerLoop req rest
                 else some (processHeaderValue ip)

/-- `get_client_ip` from `src/app.py`, lines 10-35. -/
def get_client_ip (req : Request) : Option Str :=
  headerLoop req headers_to_check

/-- The one kind of exception the `try` block of `reverse_ip` can
actually raise: calling `.split` on `None`. -/
inductive PyErr where
  | attributeError

/-- The `try` block of `reverse_ip` (lines 42-50) on the value the
resolver hands it: on a string the body is total and returns
`reverse_ip`; on `None` the attribute access `None.split` raises. -/
def reverse_ip_body : Option Str → Except PyErr Str
  | none => Except.error PyErr.attributeError
  | some ip => Except.ok (reverse_ip ip)

/-- Python `str(v)` on the resolver's result: `None` prints as
`"None"`, a string prints as itself (as interpolated by the f-string
of line 53). -/
def pyStrOf : Option Str → Str
  | none => "None".data
  | some s => s

/-- The whole `reverse_ip` function including its `except` handler
(lines 42-53): a fault in the body is caught and degraded to the
error-processing message embedding the original input. -/
def reverse_ip_full (v : Option Str) : Str :=
  match reverse_ip_body v with
  | Except.ok r => r
  | Except.error _ => "Error processing IP: ".data ++ pyStrOf v

/-- `request.headers.get('User-Agent', 'Unknown')` (line 68). -/
def user_agent_of (req : Request) : Str :=
  match req.headers "User-Agent" with
  | some v => v
  | none => "Unknown".data

/-- The JSON object the two reflecting handlers build (lines 63-69
and 90-96). -/
structure ResponseRecord where
  original_ip : Option Str
  reversed_ip : Str
  method : String
  path : Str
  user_agent : Str

/-- `handle_request` (root route, lines 55-73): response body and
HTTP status. -/
def handle_request (req : Request) : ResponseRecord × Nat :=
  let client_ip := get_client_ip req
  let reversed_ip := reverse_ip_full client_ip
  (⟨client_ip, reversed_ip, req.method, req.path, user_agent_of req⟩, 200)

/-- `health_check` (lines 75-80): fixed body and HTTP status. -/
def health_check : List (String × String) × Nat :=
  ([("status", "healthy"), ("service", "ip-reverse-app")], 200)

/-- `catch_all` (lines 82-100): same as the root handler but the
echoed path is the wildcard prefixed with `/`. -/
def catch_all (path : Str) (req : Request) : ResponseRecord × Nat :=
  let client_ip := get_client_ip req
  let reversed_ip := reverse_ip_full client_ip
  (⟨client_ip, reversed_ip, req.method, '/' :: path, user_agent_of req⟩, 200)

theorem headerLoop_skip (req : Request) (h : String) (rest : List String)
    (hh : req.headers h = none ∨ req.headers h = some []) :
    headerLoop req (h :: rest) = headerLoop req rest := by
  rcases hh with h1 | h1 <;> simp [headerLoop, h1]

theorem headerLoop_hit (req : Request) (h : String) (rest : List String)
    (v : Str) (hv : req.headers h = some v) (hne : v ≠ []) :
    headerLoop req (h :: rest) = some (processHeaderValue v) := by
  simp [headerLoop, hv, hne]

theorem headerLoop_first (req : Request) :
    ∀ (pre : List String) (h : String) (post : List String) (v : Str),
      (∀ g ∈ pre, req.headers g = none ∨ req.headers g = some []) →
      req.headers h = some v → v ≠ [] →
      headerLoop req (pre ++ h :: post) = some (processHeaderValue v) := by
  intro pre
  induction pre with
  | nil =>
    intro h post v _ hv hne
    simpa using headerLoop_hit req h post v hv hne
  | cons g pre' ih =>
    intro h post v hpre hv hne
    rw [List.cons_append,
        headerLoop_skip req g _ (hpre g (List.mem_cons_self g pre'))]
    exact ih h post v (fun g' hg' => hpre g' (List.mem_cons_of_mem g hg'))
      hv hne

theorem headerLoop_all_skip (req : Request) :
    ∀ l : List String,
      (∀ g ∈ l, req.headers g = none ∨ req.headers g = some []) →
      headerLoop req l = req.remote_addr := by
  intro l
  induction l with
  | nil => intro _; rfl
  | cons g l' ih =>
    intro hl
    rw [headerLoop_skip req g l' (hl g (List.mem_cons_self g l'))]
    exact ih (fun g' hg' => hl g' (List.mem_cons_of_mem g hg'))

/-- A request carrying both `X-Forwarded-For: 9.9.9.9` and
`X-Real-IP: 1.1.1.1`. -/
def reqBothHeaders : Request :=
  ⟨fun n => if n = "X-Forwarded-For" then some ("9.9.9.9".data)
            else if n = "X-Real-IP" then some ("1.1.1.1".data) else none,
   some ("10.0.0.1".data), "GET", "/".data⟩

/-- A request whose `X-Forwarded-For` carries a forwarding chain. -/
def reqForwardChain : Request :=
  ⟨fun n => if n = "X-Forwarded-For"
            then some ("203.0.113.5, 70.41.3.18".data) else none,
   some ("10.0.0.2".data), "GET", "/".data⟩

/-- A request with no candidate proxy header set. -/
def reqNoHeaders : Request :=
  ⟨fun _ => none, some ("5.6.7.8".data), "POST", "/foo/bar".data⟩

/-- A request whose `X-Forwarded-For` value has surrounding spaces and
no comma. -/
def reqSpacedHeader : Request :=
  ⟨fun n => if n = "X-Forwarded-For" then some (" 1.2.3.4 ".data) else none,
   some ("10.0.0.3".data), "GET", "/".data⟩

/-- A request with no candidate proxy header and no transport peer
address. -/
def reqNullPeer : Request :=
  ⟨fun _ => none, none, "GET", "/".data⟩

/-- C1: for every input of exactly four dot-separated segments
`a.b.c.d` (segments arbitrary dot-free strings), `reverse_ip` returns
the segments in reversed order rejoined with dots, `d.c.b.a`. -/
theorem reverse_ip_quad (a b c d : Str)
    (ha : '.' ∉ a) (hb : '.' ∉ b) (hc : '.' ∉ c) (hd : '.' ∉ d) :
    reverse_ip (a ++ '.' :: (b ++ '.' :: (c ++ '.' :: d))) =
      d ++ '.' :: (c ++ '.' :: (b ++ '.' :: a)) := by
  have hsplit : pySplit '.' (a ++ '.' :: (b ++ '.' :: (c ++ '.' :: d)))
      = [a, b, c, d] := by
    rw [pySplit_append '.' a _ ha, pySplit_append '.' b _ hb,
        pySplit_append '.' c _ hc, pySplit_no_sep '.' d hd]
  simp only [reverse_ip, hsplit, List.length_cons, List.length_nil]
  norm_num
  simp [joinDot]

theorem reverse_ip_quad_witness :
    reverse_ip ("1".data ++ '.' :: ("2".data ++ '.' :: ("3".data ++ '.' :: "4".data))) =
      "4".data ++ '.' :: ("3".data ++ '.' :: ("2".data ++ '.' :: "1".data)) :=
  reverse_ip_quad "1".data "2".data "3".data "4".data
    (by decide) (by decide) (by decide) (by decide)

/-- C2: for every input whose split on `.` does not have exactly four
segments (the empty string included), `reverse_ip` returns exactly
`"Invalid IP format: "` followed by the original input. -/
theorem reverse_ip_invalid (x : Str)
    (h : (pySplit '.' x).length ≠ 4) :
    reverse_ip x = "Invalid IP format: ".data ++ x := by
  simp [reverse_ip, h]

theorem reverse_ip_invalid_witness :
    reverse_ip [] = "Invalid IP format: ".data ++ [] :=
  reverse_ip_invalid [] (by decide)

/-- C3: round-trip: for every string with exactly four dot-separated
segments, applying `reverse_ip` twice returns the string unchanged. -/
theorem reverse_ip_involutive (x : Str)
    (h : (pySplit '.' x).length = 4) :
    reverse_ip (reverse_ip x) = x := by
  have h1 : reverse_ip x = joinDot '.' (pySplit '.' x).reverse := by
    simp [reverse_ip, h]
  have hne : (pySplit '.' x).reverse ≠ [] := by
    simp [pySplit_ne_nil '.' x]
  have hmem : ∀ t ∈ (pySplit '.' x).reverse, '.' ∉ t := fun t ht =>
    mem_pySplit_not_mem '.' x t (List.mem_reverse.mp ht)
  have h2 : pySplit '.' (joinDot '.' (pySplit '.' x).reverse)
      = (pySplit '.' x).reverse :=
    pySplit_joinDot '.' _ hne hmem
  rw [h1]
  simp only [reverse_ip]
  rw [h2, List.length_reverse, if_pos h, List.reverse_reverse]
  exact joinDot_pySplit '.' x

theorem reverse_ip_involutive_witness :
    reverse_ip (reverse_ip ("a.b.c.d".data)) = "a.b.c.d".data :=
  reverse_ip_involutive ("a.b.c.d".data) (by decide)

/-- C5: `get_client_ip` inspects the candidate headers in the fixed
order of `headers_to_check` and resolves from the first one present
with a non-empty value (applying the comma processing of the code to
it); in particular a request with both `X-Forwarded-For: 9.9.9.9` and
`X-Real-IP: 1.1.1.1` resolves to `9.9.9.9`. -/
theorem get_client_ip_priority :
    (∀ (req : Request) (pre : List String) (h : String)
        (post : List String) (v : Str),
        headers_to_check = pre ++ h :: post →
        (∀ g ∈ pre, req.headers g = none ∨ req.headers g = some []) →
        req.headers h = some v → v ≠ [] →
        get_client_ip req = some (processHeaderValue v)) ∧
    (∀ req : Request,
        req.headers "X-Forwarded-For" = some ("9.9.9.9".data) →
        req.headers "X-Real-IP" = some ("1.1.1.1".data) →
        get_client_ip req = some ("9.9.9.9".data)) := by
  have hgen : ∀ (req : Request) (pre : List String) (h : String)
      (post : List String) (v : Str),
      headers_to_check = pre ++ h :: post →
      (∀ g ∈ pre, req.headers g = none ∨ req.headers g = some []) →
      req.headers h = some v → v ≠ [] →
      get_client_ip req = some (processHeaderValue v) := by
    intro req pre h post v hdecomp hpre hv hne
    unfold get_client_ip
    rw [hdecomp]
    exact headerLoop_first req pre h post v hpre hv hne
  refine ⟨hgen, ?_⟩
  intro req h1 _
  rw [hgen req [] "X-Forwarded-For"
    ["X-Real-IP", "X-Forwarded", "X-Cluster-Client-IP", "CF-Connecting-IP"]
    ("9.9.9.9".data) rfl (fun g hg => absurd hg (List.not_mem_nil g))
    h1 (by decide)]
  decide

theorem get_client_ip_priority_witness :
    get_client_ip reqBothHeaders = some ("9.9.9.9".data) :=
  get_client_ip_priority.2 reqBothHeaders rfl rfl

/-- C6: when the first matching header's value contains a comma,
`get_client_ip` returns only the first comma-separated element with
surrounding whitespace stripped. -/
theorem get_client_ip_comma_split (req : Request) (pre : List String)
    (h : String) (post : List String) (v : Str)
    (hdecomp : headers_to_check = pre ++ h :: post)
    (hpre : ∀ g ∈ pre, req.headers g = none ∨ req.headers g = some [])
    (hv : req.headers h = some v) (hne : v ≠ []) (hcomma : ',' ∈ v) :
    get_client_ip req = some (pyStrip ((pySplit ',' v).headD [])) := by
  unfold get_client_ip
  rw [hdecomp, headerLoop_first req pre h post v hpre hv hne]
  simp [processHeaderValue, hcomma]

theorem get_client_ip_comma_split_witness :
    get_client_ip reqForwardChain = some ("203.0.113.5".data) := by
  rw [get_client_ip_comma_split reqForwardChain [] "X-Forwarded-For"
    ["X-Real-IP", "X-Forwarded", "X-Cluster-Client-IP", "CF-Connecting-IP"]
    ("203.0.113.5, 70.41.3.18".data) rfl
    (fun g hg => absurd hg (List.not_mem_nil g)) rfl (by decide) (by decide)]
  decide

/-- C7: when none of the five candidate headers is present with a
non-empty value, `get_client_ip` returns the transport peer address
unchanged. -/
theorem get_client_ip_fallback (req : Request)
    (hh : ∀ g ∈ headers_to_check,
        req.headers g = none ∨ req.headers g = some []) :
    get_client_ip req = req.remote_addr :=
  headerLoop_all_skip req headers_to_check hh

theorem get_client_ip_fallback_witness :
    get_client_ip reqNoHeaders = some ("5.6.7.8".data) :=
  get_client_ip_fallback reqNoHeaders (fun _ _ => Or.inl rfl)

/-- C10: when the first matching header's value contains no comma,
`get_client_ip` returns that value verbatim, surrounding whitespace
included. -/
theorem get_client_ip_no_comma_verbatim (req : Request)
    (pre : List String) (h : String) (post : List String) (v : Str)
    (hdecomp : headers_to_check = pre ++ h :: post)
    (hpre : ∀ g ∈ pre, req.headers g = none ∨ req.headers g = some [])
    (hv : req.headers h = some v) (hne : v ≠ []) (hnc : ',' ∉ v) :
    get_client_ip req = some v := by
  unfold get_client_ip
  rw [hdecomp, headerLoop_first req pre h post v hpre hv hne]
  simp [processHeaderValue, hnc]

theorem get_client_ip_no_comma_verbatim_witness :
    get_client_ip reqSpacedHeader = some (" 1.2.3.4 ".data) :=
  get_client_ip_no_comma_verbatim reqSpacedHeader [] "X-Forwarded-For"
    ["X-Real-IP", "X-Forwarded", "X-Cluster-Client-IP", "CF-Connecting-IP"]
    (" 1.2.3.4 ".data) rfl
    (fun g hg => absurd hg (List.not_mem_nil g)) rfl (by decide) (by decide)

/-- C8: `reverse_ip` is total on any input value: it always yields a
string; a fault raised inside the `try` body is caught and degraded to
`"Error processing IP: "` plus the original input; on a string input
the body never faults. -/
theorem reverse_ip_total (v : Option Str) :
    (∃ s : Str, reverse_ip_full v = s) ∧
    (∀ e, reverse_ip_body v = Except.error e →
        reverse_ip_full v = "Error processing IP: ".data ++ pyStrOf v) ∧
    (∀ s : Str, v = some s →
        reverse_ip_body v = Except.ok (reverse_ip s)) := by
  refine ⟨⟨reverse_ip_full v, rfl⟩, ?_, ?_⟩
  · intro e he
    simp [reverse_ip_full, he]
  · intro s hs
    subst hs
    rfl

theorem reverse_ip_total_witness :
    reverse_ip_full none = "Error processing IP: None".data := by
  rw [(reverse_ip_total none).2.1 PyErr.attributeError rfl]
  decide

/-- C9: all three route handlers return HTTP status 200 on every
request they accept; no condition produces a non-200 status. -/
theorem routes_always_200 :
    ∀ req : Request, (handle_request req).2 = 200 ∧ health_check.2 = 200 ∧
      ∀ (p : Str) (req2 : Request), (catch_all p req2).2 = 200 :=
  fun _ => ⟨rfl, rfl, fun _ _ => rfl⟩

/-- C4 counterexample: with no candidate header and no peer address the
resolver yields `none`, and the downstream reversal returns the
error-processing message `"Error processing IP: None"`, not the
malformed-format message `"Invalid IP format: None"` the claim
states. -/
theorem null_ip_not_invalid_format :
    get_client_ip reqNullPeer = none ∧
    reverse_ip_full (get_client_ip reqNullPeer)
      = "Error processing IP: None".data ∧
    reverse_ip_full (get_client_ip reqNullPeer)
      ≠ "Invalid IP format: None".data := by
  refine ⟨rfl, by decide, by decide⟩

/-- C4 amended: when the resolver yields a null client IP (no candidate
header matched and no transport peer address), the reversal's `try`
body faults on `None.split` before the segment-count check; the
`except` handler catches it and returns `"Error processing IP: None"`
embedding the null-ish value. -/
theorem null_ip_error_path (req : Request)
    (hh : ∀ g ∈ headers_to_check,
        req.headers g = none ∨ req.headers g = some [])
    (hr : req.remote_addr = none) :
    get_client_ip req = none ∧
    reverse_ip_body (get_client_ip req)
      = Except.error PyErr.attributeError ∧
    reverse_ip_full (get_client_ip req)
      = "Error processing IP: None".data := by
  have h1 : get_client_ip req = none := by
    unfold get_client_ip
    rw [headerLoop_all_skip req headers_to_check hh, hr]
  refine ⟨h1, ?_, ?_⟩
  · rw [h1]
    rfl
  · rw [h1]
    decide

theorem null_ip_error_path_witness :
    get_client_ip reqNullPeer = none ∧
    reverse_ip_body (get_client_ip reqNullPeer)
      = Except.error PyErr.attributeError ∧
    reverse_ip_full (get_client_ip reqNullPeer)
      = "Error processing IP: None".data :=
  null_ip_error_path reqNullPeer (fun _ _ => Or.inl rfl) rfl
